import Mathlib

/-!
Verification development for the Analysis-Site safety & compliance pipeline.

The definitions below are a shallow embedding of the two core modules:
  * `src/utils/data_processor.py`  (class `SafetyDataProcessor`)
  * `src/logic/dashboard_analyzer.py` (class `DashboardAnalyzer`)
Python strings are modelled as Lean `String`, `NaN`/`None` cells as `Option`,
float arithmetic on small ratios as `ℚ` (all comparisons in the source are
between small integer ratios and constants, where double rounding cannot cross
a threshold), and wall-clock "now" as an explicit integer day parameter.
-/

namespace AnalysisSite

/-! ### Python string primitives -/

/-- Python whitespace test for `str.strip` (the labels in this code base only
use spaces, tabs, CR and LF). -/
def pyWS (c : Char) : Bool :=
  c = ' ' || c = '\t' || c = '\n' || c = '\r'

/-- Drop characters satisfying `p` from both ends of a char list. -/
def stripWhile (p : Char → Bool) (l : List Char) : List Char :=
  ((l.dropWhile p).reverse.dropWhile p).reverse

/-- Python `str.strip()`. -/
def pyStrip (s : String) : String :=
  ⟨stripWhile pyWS s.data⟩

/-- Python `str.strip('_')`. -/
def stripUnderscores (s : String) : String :=
  ⟨stripWhile (fun c => c = '_') s.data⟩

/-- Does `pat` occur as a contiguous sublist of `l`? (model of Python `in` /
`str.contains` on plain, regex-free patterns). -/
def subOccurs (pat : List Char) : List Char → Bool
  | [] => pat.isEmpty
  | c :: rest => pat.isPrefixOf (c :: rest) || subOccurs pat rest

/-- Python `pat in s` (substring containment). -/
def containsSub (s pat : String) : Bool :=
  subOccurs pat.data s.data

/-- ASCII lower-casing of one character (Arabic letters are caseless, so this
is all `case=False` ever changes on this data). -/
def charLower (c : Char) : Char :=
  if 65 ≤ c.toNat ∧ c.toNat ≤ 90 then Char.ofNat (c.toNat + 32) else c

/-- Case-insensitive containment: model of
`series.astype(str).str.contains(pat, case=False, na=False)` on one value. -/
def containsCI (s pat : String) : Bool :=
  subOccurs (pat.data.map charLower) (s.data.map charLower)

/-- Python `str.startswith`. -/
def strStartsWith (s pre : String) : Bool :=
  pre.data.isPrefixOf s.data

/-- Python `str(x)` on a cell that may be `NaN`: missing values print as
`"nan"` (this is what `astype(str)` produces). -/
def optStr : Option String → String
  | some s => s
  | none => "nan"

/-! ### Decimal rendering of naturals (for the `f"{col}_{n}"` suffixes) -/

/-- One decimal digit. -/
def digitChar : Nat → Char
  | 0 => '0' | 1 => '1' | 2 => '2' | 3 => '3' | 4 => '4'
  | 5 => '5' | 6 => '6' | 7 => '7' | 8 => '8' | 9 => '9'
  | _ => '*'

/-- Fuel-driven decimal expansion (structural, hence kernel-reducible). -/
def toDecCore : Nat → Nat → List Char
  | 0, _ => []
  | fuel + 1, n =>
    if n < 10 then [digitChar n]
    else toDecCore fuel (n / 10) ++ [digitChar (n % 10)]

/-- Decimal digits of `n`, most significant first. -/
def toDecChars (n : Nat) : List Char := toDecCore (n + 1) n

/-- Python `str(n)` for a natural number. -/
def natToDec (n : Nat) : String := ⟨toDecChars n⟩

/-! ### Column Normalizer: `_clean_column_names` -/

/-- Python `\w` word-character test.  The source regex runs in Unicode mode, so
Arabic letters are word characters; we model this as: ASCII alphanumeric,
underscore, or any non-ASCII codepoint (the data's labels contain only Arabic
letters and ASCII beyond those classes). -/
def isWordChar (c : Char) : Bool :=
  c.isAlphanum || c = '_' || decide (128 ≤ c.toNat)

/-- Replace every maximal run of characters satisfying `p` by the single
character `rep` (model of `re.sub(p+, rep, s)`).  The flag records whether the
previous character was part of a run. -/
def collapseRunsAux (p : Char → Bool) (rep : Char) : Bool → List Char → List Char
  | _, [] => []
  | inRun, c :: cs =>
    if p c then
      if inRun then collapseRunsAux p rep true cs
      else rep :: collapseRunsAux p rep true cs
    else c :: collapseRunsAux p rep false cs

def collapseRuns (p : Char → Bool) (rep : Char) (l : List Char) : List Char :=
  collapseRunsAux p rep false l

/-- The cleaning chain of `_clean_column_names` applied to one present label:
strip, `\n+` to `_`, `\s+` to `_`, drop non-word characters, collapse repeated
underscores, strip underscores. -/
def cleanLabelCore (s : String) : String :=
  let l₁ := stripWhile pyWS s.data
  let l₂ := collapseRuns (fun c => c = '\n') '_' l₁
  let l₃ := collapseRuns (fun c => pyWS c) '_' l₂
  let l₄ := l₃.filter isWordChar
  let l₅ := collapseRuns (fun c => c = '_') '_' l₄
  stripUnderscores ⟨l₅⟩

/-- `_clean_column_names` on the label at position `idx`: a missing label or a
pandas `Unnamed:` placeholder becomes `col_<idx>`; otherwise the cleaning chain
runs, falling back to `col_<idx>` when it empties the label. -/
def cleanLabel (idx : Nat) : Option String → String
  | none => "col_" ++ natToDec idx
  | some s =>
    if strStartsWith s "Unnamed" then "col_" ++ natToDec idx
    else
      let c := cleanLabelCore s
      if c = "" then "col_" ++ natToDec idx else c

/-- `_clean_column_names` over a full label list. -/
def cleanColumnNames (cols : List (Option String)) : List String :=
  cols.enum.map (fun p => cleanLabel p.1 p.2)

/-! ### Column Normalizer: `_handle_duplicate_columns` -/

/-- The output label at position `n`: the Python loop keeps a `seen` counter
per original name, so the k-th occurrence (0-based k, i.e. the count of the
name among the earlier originals) of `c` is emitted as `c` when `k = 0` and as
`c_<k>` otherwise. -/
def dedupedLabel (cols : List String) (n : Nat) : String :=
  let c := cols.getD n ""
  let k := (cols.take n).count c
  if k = 0 then c else c ++ "_" ++ natToDec k

/-- `_handle_duplicate_columns`. -/
def handleDuplicateColumns (cols : List String) : List String :=
  (List.range cols.length).map (dedupedLabel cols)

/-- The Column Normalizer of the spec: label cleaning followed by duplicate
suffixing, exactly as `_clean_dataframe` composes them. -/
def normalizeColumns (cols : List (Option String)) : List String :=
  handleDuplicateColumns (cleanColumnNames cols)

/-! ### Header Promoter: `_is_potential_header_row` and the promotion step -/

/-- A raw cell value: a string or a number.  Cells wrapped in `Option` model
`NaN` as `none`.  Numbers are carried as rationals (the float payload is
irrelevant to every claim; only `isinstance(x, str)` tests touch the class). -/
inductive PV where
  | s (v : String)
  | n (v : ℚ)
deriving DecidableEq, Repr

/-- `str(x)` for a raw cell (used when a promoted header cell is stringified).
Integral floats print as `d.0` in Python; non-integral rendering is abstracted
(never exercised by the claims). -/
def pvStr : PV → String
  | .s v => v
  | .n v => if v.den = 1 then natToDec v.num.natAbs ++ ".0" else "num"

/-- `x.strip().replace('.', '', 1).isdigit()`: the "parses as a bare number"
test of `_is_potential_header_row`. -/
def digitLike (s : String) : Bool :=
  let t := stripWhile pyWS s.data
  let u := match t.findIdx? (fun c => c = '.') with
    | some i => t.take i ++ t.drop (i + 1)
    | none => t
  !u.isEmpty && u.all Char.isDigit

/-- `string_like_count`: non-null cells that are strings and not digit-like. -/
def countStringLike (cells : List (Option PV)) : Nat :=
  (cells.filter (fun x => match x with
    | some (.s v) => !digitLike v
    | _ => false)).length

/-- `row.notna().sum()`. -/
def countNotNa (cells : List (Option PV)) : Nat :=
  (cells.filter Option.isSome).length

/-- `_is_potential_header_row` on a row whose index is `labels`: either more
than half of the non-null cells are non-numeric strings, or some column label
still starts with `Unnamed` and the count of such cells exceeds 0.3 times the
total cell count. -/
def isPotentialHeaderRow (labels : List String) (cells : List (Option PV)) : Bool :=
  let sl := countStringLike cells
  let nn := countNotNa cells
  (decide (0 < nn) && decide ((1 : ℚ) / 2 < (sl : ℚ) / (nn : ℚ)))
    || (labels.any (fun l => strStartsWith l "Unnamed")
        && decide ((3 : ℚ) / 10 * (cells.length : ℚ) < (sl : ℚ)))

/-- A sheet after loading: raw labels (possibly missing) and rows of cells. -/
structure RawSheet where
  cols : List (Option String)
  rows : List (List (Option PV))
deriving DecidableEq

/-- A sheet once its labels have been cleaned and deduplicated. -/
structure CleanSheet where
  cols : List String
  rows : List (List (Option PV))
deriving DecidableEq

/-- `new_columns = [str(col).strip() if pd.notna(col) else f"col_{i}" ...]`
when row 0 is promoted to the header. -/
def promotedLabels (r : List (Option PV)) : List String :=
  r.enum.map (fun p => match p.2 with
    | some v => pyStrip (pvStr v)
    | none => "col_" ++ natToDec p.1)

/-- The header-promotion fragment of `_clean_dataframe`: if the first data row
looks like a header, promote it (re-cleaning and re-deduplicating the labels)
and drop it from the data. -/
def headerStep (t : CleanSheet) : CleanSheet :=
  match t.rows with
  | [] => t
  | r0 :: rest =>
    if isPotentialHeaderRow t.cols r0 then
      ⟨handleDuplicateColumns (cleanColumnNames ((promotedLabels r0).map some)), rest⟩
    else t

/-- The front of `_clean_dataframe`: drop all-null rows, then all-null
columns, clean and deduplicate the labels, then run the Header Promoter. -/
def cleanSheetFront (t : RawSheet) : CleanSheet :=
  let rows₁ := t.rows.filter (fun r => r.any Option.isSome)
  let keep := (List.range t.cols.length).filter
    (fun j => rows₁.any (fun r => (r.getD j none).isSome))
  let cols₂ := keep.map (fun j => t.cols.getD j none)
  let rows₂ := rows₁.map (fun r => keep.map (fun j => r.getD j none))
  headerStep ⟨normalizeColumns cols₂, rows₂⟩

/-! ### Text Canonicalizer: `_clean_text_data` (per cell) -/

/-- One cell of an object column through `_clean_text_data`: `astype(str)`
turns `NaN` into the literal `"nan"`, which the subsequent replacement maps
back to null; a present string is stripped and becomes null when it strips to
`"nan"` or to the empty string. -/
def cleanTextCell : Option String → Option String
  | none => none
  | some s =>
    let t := pyStrip s
    if t = "nan" ∨ t = "" then none else some t

/-! ### Status Canonicalizer: `_standardize_status_values` (per value) -/

/-- The fixed `status_mappings` dictionary of `_standardize_status_values`. -/
def statusPairs : List (String × String) :=
  [("مفتوح - Open", "مفتوح"),
   ("مغلق - Close", "مغلق"),
   ("مغلق - Closed", "مغلق"),
   ("Closed - Close", "مغلق"),
   ("Open", "مفتوح"),
   ("Close", "مغلق"),
   ("Closed", "مغلق"),
   ("مكتمل", "مغلق"),
   ("complete", "مغلق"),
   ("completed", "مغلق"),
   ("قيد المراجعة", "مفتوح"),
   ("in review", "مفتوح"),
   ("pending", "مفتوح")]

/-- `status_mappings.get(x, x)`, applied to non-null values of status-named
columns (dict lookup is exact key equality). -/
def standardizeStatusValue (x : String) : String :=
  match statusPairs.find? (fun p => p.1 = x) with
  | some p => p.2
  | none => x

/-- The status column of a unified dataset: each source sheet's status column
passes through the Text Canonicalizer and then the Status Canonicalizer (its
name contains the status keyword `حالة`, and no date/numeric keyword, so the
Type Coercer leaves it alone), and `_merge_similar_datasets` concatenates the
per-sheet columns row-wise. -/
def unifiedStatusColumn (sheets : List (List (Option String))) : List (Option String) :=
  (sheets.map (fun col =>
    (col.map cleanTextCell).map (fun x => x.map standardizeStatusValue))).flatten

/-! ### Schema Unifier: `_merge_similar_datasets` -/

/-- A generic table for the merge step: ordered column labels and rows given
as cell lookups (a row answers `none` for columns it has no value for). -/
structure GTable where
  cols : List String
  rows : List (String → Option String)

/-- The union of all column names across the datasets (`all_columns`, a set in
the source; modelled as order-deduplicated concatenation). -/
def unionCols (dfs : List GTable) : List String :=
  ((dfs.map GTable.cols).flatten).dedup

/-- `df.reindex(columns=list(all_columns))` on one row: columns the source
table lacks are filled with null. -/
def reindexRow (df : GTable) (r : String → Option String) : String → Option String :=
  fun c => if c ∈ df.cols then r c else none

/-- `_merge_similar_datasets`: reindex every table to the full column union
and concatenate row-wise. -/
def mergeSimilarDatasets (dfs : List GTable) : GTable :=
  ⟨unionCols dfs, (dfs.map (fun df => df.rows.map (reindexRow df))).flatten⟩

/-! ### DashboardAnalyzer: shared row/frame/filter model

The analyzers consume the standardized columns `الإدارة` (sector), `الحالة`
(status), `التاريخ` (date), `النشاط` (activity), `التصنيف` (risk level),
`نسبة_المخاطرة` (risk ratio) and `التوصية_المقترحة` (recommendation).  A row
carries those cells; a frame adds the column-presence facts the analyzers
branch on.  Dates are day numbers (`none` = `NaT`); the risk ratio is carried
already float-parsed (`none` = missing or unparsable, which the source's
`float(...)`-with-except maps to the `غير محدد` bucket). -/

structure PRow where
  sector : Option String
  status : Option String
  date : Option Int
  activity : Option String
  riskLevel : Option String
  riskPct : Option ℚ
  recCell : Option String
deriving DecidableEq, Repr

structure PFrame where
  rows : List PRow
  hasRiskLevel : Bool
  hasRiskPct : Bool
  hasRec : Bool
deriving DecidableEq, Repr

/-- The recognized filter keys (`None` field = key absent from the dict).
The priority and risk-level filters act on columns (`الأولوية`,
`مستوى المخاطر`) that none of the unified datasets carry, so on this schema
they are no-ops and are not modelled as fields. -/
structure PFilters where
  dateRange : Option (Int × Int)
  sectors : Option (List String)
  status : Option (List String)
  searchQuery : Option String
  recommendationFilter : Option String
  activitySort : Option String
deriving DecidableEq, Repr

/-- The all-keys-absent filters dictionary `{}`. -/
def emptyFilters : PFilters := ⟨none, none, none, none, none, none⟩

/-- The error text of `'date_range' in None`. -/
def noneTypeErr : String := "TypeError: argument of type NoneType is not iterable"

/-- Text search looks at every object-typed column of the frame; on this
schema those are the five string columns. -/
def searchHit (q : String) (r : PRow) : Bool :=
  containsCI (optStr r.sector) q || containsCI (optStr r.status) q
    || containsCI (optStr r.activity) q || containsCI (optStr r.riskLevel) q
    || containsCI (optStr r.recCell) q

/-- `_apply_common_filters` after the `df.copy()` (date range, sector `isin`,
status substring, text search; the date column of the unified frames is
datetime-typed, so the date branch applies). -/
def applyCommonFilters (f : PFilters) (rows : List PRow) : List PRow :=
  let r₁ := match f.dateRange with
    | some (s, e) =>
      rows.filter (fun r => match r.date with
        | some d => decide (s ≤ d) && decide (d ≤ e)
        | none => false)
    | none => rows
  let r₂ := match f.sectors with
    | some secs =>
      if secs.isEmpty then r₁
      else r₁.filter (fun r => match r.sector with
        | some v => secs.contains v
        | none => false)
    | none => r₁
  let r₃ := match f.status with
    | some sts =>
      if sts.isEmpty || sts.contains "الكل" then r₂
      else r₂.filter (fun r => sts.any (fun p => containsCI (optStr r.status) p))
    | none => r₂
  match f.searchQuery with
  | some q => if q = "" then r₃ else r₃.filter (searchHit q)
  | none => r₃

/-- `SECTORS` fallback list from `config.settings`. -/
def SECTORS : List String :=
  ["قطاع المشاريع", "قطاع التشغيل", "قطاع الخدمات", "قطاع التخصيص", "أخرى"]

/-- `RISK_ACTIVITIES` fallback list from `config.settings`. -/
def RISK_ACTIVITIES : List String :=
  ["الأماكن المغلقة", "الارتفاعات", "الحفريات", "الكهرباء"]

/-! ### Sorting helpers (`sorted(...)`, `sort_values`) -/

def insertBy {α : Type} (le : α → α → Bool) (x : α) : List α → List α
  | [] => [x]
  | y :: ys => if le x y then x :: y :: ys else y :: insertBy le x ys

def sortBy {α : Type} (le : α → α → Bool) (l : List α) : List α :=
  l.foldr (insertBy le) []

/-- Code-point lexicographic order on char lists (Python string `<=`). -/
def listCharLe : List Char → List Char → Bool
  | [], _ => true
  | _ :: _, [] => false
  | a :: as, b :: bs => if a = b then listCharLe as bs else decide (a.toNat < b.toNat)

def strLeB (a b : String) : Bool := listCharLe a.data b.data

/-- `sorted(list(set(xs)))`. -/
def sortedSet (xs : List String) : List String :=
  sortBy strLeB xs.eraseDups

/-! ### Compliance Analyzer: `get_compliance_summary` -/

/-- Closed-record test: `astype(str).str.contains('مغلق|مكتمل', case=False)`. -/
def isClosedStatus (st : Option String) : Bool :=
  containsCI (optStr st) "مغلق" || containsCI (optStr st) "مكتمل"

def countClosed (rows : List PRow) : Nat :=
  (rows.filter (fun r => isClosedStatus r.status)).length

/-- The per-sector row selection shared by the compliance and incident loops:
`df[sector_col].astype(str).str.contains(str(sector), case=False, na=False)`. -/
def sectorFilterRows (rows : List PRow) (sector : String) : List PRow :=
  rows.filter (fun r => containsCI (optStr r.sector) sector)

inductive Priority where
  | low      -- "منخفض"
  | medium   -- "متوسط"
  | high     -- "عالي"
  | urgent   -- "عاجل"
deriving DecidableEq, Repr

/-- The nested-if priority assignment of `get_compliance_summary` (the
recommendation/status-colour strings follow the same branches). -/
def codePriority (p t : ℚ) : Priority :=
  if 90 ≤ p then
    if 0 ≤ t then .low else .medium
  else if 70 ≤ p then
    if 5 < t then .medium
    else if t < -5 then .high
    else .medium
  else
    if 5 < t then .high else .urgent

structure CompRec where
  sector : String
  total : Nat
  closed : Nat
  compliancePct : ℚ
  trend : ℚ
  recentPct : ℚ
  priority : Priority
deriving DecidableEq, Repr

/-- One iteration of the compliance sector loop: the record for `sector`
computed over the filtered frame, or `none` when the sector's row set is
empty (the `continue`). -/
def complianceSector (now : Int) (rows : List PRow) (sector : String) : Option CompRec :=
  let sdf := sectorFilterRows rows sector
  if sdf.isEmpty then none
  else
    let total := sdf.length
    let closed := countClosed sdf
    let p : ℚ := if 0 < total then (closed : ℚ) / (total : ℚ) * 100 else 0
    let recent := sdf.filter (fun r => match r.date with
      | some d => decide (now - 90 ≤ d)
      | none => false)
    let rc : ℚ :=
      if recent.isEmpty then 0
      else if 0 < recent.length then (countClosed recent : ℚ) / (recent.length : ℚ) * 100
      else 0
    let t := rc - p
    some ⟨sector, total, closed, p, t, rc, codePriority p t⟩

/-- `sectors_to_analyze`: `filters.get('sectors', available)` then the
fall-back to `SECTORS` when the result is empty. -/
def sectorsToAnalyze (fsecs : Option (List String)) (filtered : List PRow) : List String :=
  let available := (filtered.filterMap PRow.sector).eraseDups
  let s₀ := match fsecs with
    | some l => l
    | none => available
  if s₀.isEmpty then SECTORS else s₀

/-- The record list built by the sector loop. -/
def complianceRecords (now : Int) (f : PFilters) (frame : PFrame) : List CompRec :=
  let fr := applyCommonFilters f frame.rows
  (sortedSet (sectorsToAnalyze f.sectors fr)).filterMap (complianceSector now fr)

/-- `get_compliance_summary(unified_data, filters)`.  An empty inspections
frame returns the empty result before filters are touched; with a non-null
filters dict the summary is computed; with `filters=None` the membership test
`'date_range' in filters` inside `_apply_common_filters` raises `TypeError`. -/
def getComplianceSummary (now : Int) (frame : PFrame) (filters : Option PFilters) :
    Except String (List CompRec) :=
  if frame.rows.isEmpty then .ok []
  else match filters with
    | none => .error noneTypeErr
    | some f => .ok (complianceRecords now f frame)

/-! ### Risk Analyzer: `get_risk_activities_summary` -/

/-- `categorize_risk_by_percentage` on an already-parsed ratio (`none` models
the `float(...)` failure branch). -/
def categorizeRisk : Option ℚ → String
  | some v => if 7/10 ≤ v then "عالي" else if 2/5 ≤ v then "متوسط" else "منخفض"
  | none => "غير محدد"

/-- The derived risk-level column written when `التصنيف` is absent. -/
def deriveRiskRows (hasRiskPct : Bool) (rows : List PRow) : List PRow :=
  if hasRiskPct then
    rows.map (fun r => ⟨r.sector, r.status, r.date, r.activity,
      some (categorizeRisk r.riskPct), r.riskPct, r.recCell⟩)
  else
    rows.map (fun r => ⟨r.sector, r.status, r.date, r.activity,
      some "غير محدد", r.riskPct, r.recCell⟩)

/-- High-risk test: `str.contains('عالي|مرتفع', case=False)`. -/
def isHighRisk (lvl : Option String) : Bool :=
  containsCI (optStr lvl) "عالي" || containsCI (optStr lvl) "مرتفع"

structure RiskRec where
  activity : String
  total : Nat
  high : Nat
  pct : ℚ
  priorityVal : Nat
deriving DecidableEq, Repr

/-- One iteration of the activity loop (skips activities with an empty row
set). -/
def riskActivityRecord (rows : List PRow) (activity : String) : Option RiskRec :=
  let adf := rows.filter (fun r => containsCI (optStr r.activity) activity)
  if adf.isEmpty then none
  else
    let total := adf.length
    let high := (adf.filter (fun r => isHighRisk r.riskLevel)).length
    let pct : ℚ := if 0 < total then (high : ℚ) / (total : ℚ) * 100 else 0
    let pv : Nat := if 70 ≤ pct then 1 else if 40 ≤ pct then 2 else 3
    some ⟨activity, total, high, pct, pv⟩

/-- The UI recommendation filter at the end of the risk analyzer. -/
def riskFilterStep (v : Option String) (recs : List RiskRec) : List RiskRec :=
  match v with
  | some v =>
    if v = "عاجل" then recs.filter (fun r => r.priorityVal = 1)
    else if v = "متوسط" then recs.filter (fun r => r.priorityVal = 2)
    else if v = "منخفض" then recs.filter (fun r => r.priorityVal = 3)
    else recs
  | none => recs

/-- The UI activity sort at the end of the risk analyzer. -/
def riskSortStep (v : Option String) (recs : List RiskRec) : List RiskRec :=
  match v with
  | some v =>
    if v = "الأولوية" then sortBy (fun a b => decide (a.priorityVal ≤ b.priorityVal)) recs
    else if v = "الاسم" then sortBy (fun a b => strLeB a.activity b.activity) recs
    else if v = "مستوى المخاطر" then sortBy (fun a b => decide (b.pct ≤ a.pct)) recs
    else recs
  | none => recs

/-- The record list of the risk analyzer with the UI recommendation filter
and activity sort applied. -/
def riskRecords (f : PFilters) (frame : PFrame) : List RiskRec :=
  let fr := applyCommonFilters f frame.rows
  let eff := if frame.hasRiskLevel then fr else deriveRiskRows frame.hasRiskPct fr
  let acts₀ := (eff.filterMap PRow.activity).eraseDups
  let acts := if acts₀.isEmpty then RISK_ACTIVITIES else acts₀
  let recs := (sortedSet acts).filterMap (riskActivityRecord eff)
  riskSortStep f.activitySort (riskFilterStep f.recommendationFilter recs)

/-- `get_risk_activities_summary(unified_data, filters)` (same `TypeError`
behaviour on `filters=None` as the compliance analyzer). -/
def getRiskSummary (frame : PFrame) (filters : Option PFilters) :
    Except String (List RiskRec) :=
  if frame.rows.isEmpty then .ok []
  else match filters with
    | none => .error noneTypeErr
    | some f => .ok (riskRecords f frame)

/-! ### Incident Analyzer: `get_incidents_summary` -/

structure IncRec where
  sector : String
  total : Nat
  recs : Nat
  closed : Nat
  openCount : Int
  closure : ℚ
deriving DecidableEq, Repr

/-- One iteration of the incident sector loop: `recommendations_count` is the
non-null count of `التوصية_المقترحة` when that column exists and the incident
count otherwise; `closure% = closed/recommendations*100`, short-circuited to 0
when recommendations is 0. -/
def incidentSector (hasRec : Bool) (rows : List PRow) (sector : String) : Option IncRec :=
  let sdf := sectorFilterRows rows sector
  if sdf.isEmpty then none
  else
    let total := sdf.length
    let recs := if hasRec then (sdf.filter (fun r => r.recCell.isSome)).length else total
    let closed := countClosed sdf
    let closure : ℚ := if 0 < recs then (closed : ℚ) / (recs : ℚ) * 100 else 0
    some ⟨sector, total, recs, closed, (recs : Int) - (closed : Int), closure⟩

/-- The record list of the incident analyzer. -/
def incidentRecords (f : PFilters) (frame : PFrame) : List IncRec :=
  let fr := applyCommonFilters f frame.rows
  let secs₀ := (fr.filterMap PRow.sector).eraseDups
  let secs := if secs₀.isEmpty then SECTORS else secs₀
  (sortedSet secs).filterMap (incidentSector frame.hasRec fr)

/-- `get_incidents_summary(unified_data, filters)`. -/
def getIncidentsSummary (frame : PFrame) (filters : Option PFilters) :
    Except String (List IncRec) :=
  if frame.rows.isEmpty then .ok []
  else match filters with
    | none => .error noneTypeErr
    | some f => .ok (incidentRecords f frame)

/-- `Except.isOk` (named locally to keep the model self-contained). -/
def isOkE {ε α : Type} : Except ε α → Bool
  | .ok _ => true
  | .error _ => false

deriving instance DecidableEq for Except

/-! ### Heap-passing wrappers (for the frame-effect claim)

The unified datasets live in a store of frames; an analyzer receives the
index of its input frame.  `_apply_common_filters` starts with `df.copy()`,
and every subsequent mask selection and the risk analyzer's derived-column
write (`filtered_risk_df[risk_level_col] = ...`) target post-copy objects, so
allocations land at fresh indices (at the end of the store) and the only
`set` is at such a fresh index. -/

/-- Allocate a fresh frame at the end of the store. -/
def hAlloc (h : List PFrame) (x : PFrame) : List PFrame × Nat :=
  (h ++ [x], h.length)

def emptyPFrame : PFrame := ⟨[], false, false, false⟩

/-- Store-level `get_compliance_summary`: reads the frame at `i`, allocates
the filtered copy, writes nothing. -/
def getComplianceSummaryH (heap : List PFrame) (i : Nat) (now : Int)
    (filters : Option PFilters) : List PFrame × Except String (List CompRec) :=
  let frame := heap.getD i emptyPFrame
  if frame.rows.isEmpty then (heap, .ok [])
  else match filters with
    | none => ((hAlloc heap frame).1, .error noneTypeErr)
    | some f =>
      ((hAlloc heap ⟨applyCommonFilters f frame.rows, frame.hasRiskLevel,
          frame.hasRiskPct, frame.hasRec⟩).1,
        .ok (complianceRecords now f frame))

/-- Store-level `get_risk_activities_summary`: the derived-column write is an
in-place `set` on the freshly allocated filtered copy. -/
def getRiskSummaryH (heap : List PFrame) (i : Nat) (filters : Option PFilters) :
    List PFrame × Except String (List RiskRec) :=
  let frame := heap.getD i emptyPFrame
  if frame.rows.isEmpty then (heap, .ok [])
  else match filters with
    | none => ((hAlloc heap frame).1, .error noneTypeErr)
    | some f =>
      let filteredFrame : PFrame := ⟨applyCommonFilters f frame.rows,
        frame.hasRiskLevel, frame.hasRiskPct, frame.hasRec⟩
      let (heap₁, cid) := hAlloc heap filteredFrame
      let heap₂ :=
        if frame.hasRiskLevel then heap₁
        else heap₁.set cid ⟨deriveRiskRows frame.hasRiskPct filteredFrame.rows,
          true, frame.hasRiskPct, frame.hasRec⟩
      (heap₂, .ok (riskRecords f frame))

/-- Store-level `get_incidents_summary`. -/
def getIncidentsSummaryH (heap : List PFrame) (i : Nat) (filters : Option PFilters) :
    List PFrame × Except String (List IncRec) :=
  let frame := heap.getD i emptyPFrame
  if frame.rows.isEmpty then (heap, .ok [])
  else match filters with
    | none => ((hAlloc heap frame).1, .error noneTypeErr)
    | some f =>
      ((hAlloc heap ⟨applyCommonFilters f frame.rows, frame.hasRiskLevel,
          frame.hasRiskPct, frame.hasRec⟩).1,
        .ok (incidentRecords f frame))

/-! ### Statements taken verbatim from the specification (for comparison) -/

/-- The priority table of the spec's Compliance Analyzer section, transcribed
top-down with first match winning.  This definition follows the spec's words;
it is compared against `codePriority`, which follows the source. -/
def specPriorityTable (p t : ℚ) : Priority :=
  if 90 ≤ p ∧ 0 ≤ t then .low
  else if 90 ≤ p ∧ t < 0 then .medium
  else if 70 ≤ p ∧ 5 < t then .medium
  else if 70 ≤ p ∧ t < -5 then .high
  else if 70 ≤ p then .medium
  else if p < 70 ∧ 5 < t then .high
  else .urgent

/-- The header heuristic as a proposition: the code's exact condition (more
than half of the non-null cells are non-numeric strings; or some label starts
with `Unnamed` and the string-like count exceeds 0.3 of the total cell
count). -/
def headerHeuristic (labels : List String) (cells : List (Option PV)) : Prop :=
  (0 < countNotNa cells ∧
    (1 : ℚ) / 2 < (countStringLike cells : ℚ) / (countNotNa cells : ℚ))
  ∨ ((∃ l ∈ labels, strStartsWith l "Unnamed" = true)
      ∧ (3 : ℚ) / 10 * (cells.length : ℚ) < (countStringLike cells : ℚ))

/-! ### Concrete inputs used to exercise the theorems -/

/-- One inspection row: closed, dated at day 0, in the operations sector. -/
def w1row : PRow := ⟨some "قطاع التشغيل", some "مغلق", some 0, none, none, none, none⟩

def w1frame : PFrame := ⟨[w1row], true, false, true⟩

/-- The compliance record produced for `w1frame` at `now = 0`. -/
def w1rec : CompRec := ⟨"قطاع التشغيل", 1, 1, 100, 0, 100, .low⟩

/-- Incident rows for the bounded-percentage counterexample: three closed
rows, exactly one of which carries a non-null recommendation. -/
def cex2row (rc : Option String) : PRow := ⟨some "s", some "مغلق", some 0, none, none, none, rc⟩

def cex2frame : PFrame := ⟨[cex2row (some "x"), cex2row none, cex2row none], true, false, true⟩

/-- The incident record produced for `cex2frame`: closure% is 300. -/
def cex2rec : IncRec := ⟨"s", 3, 1, 3, -2, 300⟩

/-- Incident rows for the bounded-percentage witness: recommendation column
absent from the frame. -/
def w2frame : PFrame := ⟨[cex2row none, cex2row none], true, false, false⟩

def w2rec : IncRec := ⟨"s", 2, 2, 2, 0, 100⟩

/-- A non-empty inspections/risk/incidents frame for the `filters=None`
failing input. -/
def c3frame : PFrame :=
  ⟨[⟨some "قطاع التشغيل", some "مغلق", some 0, some "الحفريات", none, none, none⟩],
    true, false, true⟩

/-- A status value outside the synonym table. -/
def c4cexSheets : List (List (Option String)) := [[some "قيد التنفيذ"]]

def c4wSheets : List (List (Option String)) := [[some "Closed"]]

/-- The duplicate-label list that defeats `_handle_duplicate_columns`. -/
def cex5cols : List String := ["a", "a_1", "a"]

def w5cols : List String := ["a", "b", "a"]

/-- The spec's merge example: two `inspections` sheets, the second carrying an
extra `classification` column. -/
def c6df1 : GTable :=
  ⟨["id", "date", "status", "dept"],
    [fun c => if c = "id" then some "1" else if c = "date" then some "2024-01-01"
      else if c = "status" then some "مغلق" else if c = "dept" then some "d1" else none]⟩

def c6df2 : GTable :=
  ⟨["id", "date", "status", "dept", "classification"],
    [fun c => if c = "id" then some "2" else if c = "date" then some "2024-01-02"
      else if c = "status" then some "مفتوح" else if c = "dept" then some "d2"
      else if c = "classification" then some "A" else none]⟩

def c6dfs : List GTable := [c6df1, c6df2]

/-- The spec's header example sheet: a title row above the real header. -/
def c7raw : RawSheet :=
  ⟨[some "Unnamed: 0", some "Unnamed: 1", some "Unnamed: 2"],
    [[some (.s "Report Title"), none, none],
     [some (.s "ID"), some (.s "Date"), some (.s "Status")]]⟩

/-- What `cleanSheetFront` actually produces on `c7raw`. -/
def c7result : CleanSheet :=
  ⟨["Report_Title", "col_1", "col_2"],
    [[some (.s "ID"), some (.s "Date"), some (.s "Status")]]⟩

/-- A clean sheet whose first data row passes the header heuristic. -/
def c7wSheet : CleanSheet :=
  ⟨["col_0", "col_1"], [[some (.s "ID"), some (.s "Date")], [some (.s "x"), none]]⟩

/-- Five incidents, recommendation column present but entirely null, three
closed. -/
def cex8row (st : String) : PRow := ⟨some "s", some st, some 0, none, none, none, none⟩

def cex8rows : List PRow :=
  [cex8row "مغلق", cex8row "مغلق", cex8row "مغلق", cex8row "مفتوح", cex8row "مفتوح"]

/-- The record the incident analyzer actually produces for `cex8rows` with
the recommendation column present: recommendations 0, closure 0. -/
def cex8rec : IncRec := ⟨"s", 5, 0, 3, -3, 0⟩

/-- The same five rows with the recommendation column absent: the fallback
gives recommendations = 5 and closure% = 60. -/
def w8rec : IncRec := ⟨"s", 5, 5, 3, 2, 60⟩

/-- The column-normalizer input on which idempotence fails. -/
def cex9cols : List (Option String) := [some "a", some "a", some "a_1"]

/-- A one-frame store for the frame-effect witness. -/
def c10heap : List PFrame := [c3frame]

/-! ## Helper lemmas -/

lemma div_mul_100_bounds {c t : Nat} (hct : c ≤ t) (ht : 0 < t) :
    0 ≤ (c : ℚ) / (t : ℚ) * 100 ∧ (c : ℚ) / (t : ℚ) * 100 ≤ 100 := by
  have ht' : (0 : ℚ) < (t : ℚ) := by exact_mod_cast ht
  have hc' : (0 : ℚ) ≤ (c : ℚ) := by positivity
  have h1 : (c : ℚ) / (t : ℚ) ≤ 1 := (div_le_one ht').mpr (by exact_mod_cast hct)
  constructor
  · positivity
  · have h2 := mul_le_mul_of_nonneg_right h1 (by norm_num : (0 : ℚ) ≤ 100)
    linarith

lemma countClosed_le (rows : List PRow) : countClosed rows ≤ rows.length :=
  List.length_filter_le _ _

lemma mem_insertBy {α : Type} (le : α → α → Bool) (x a : α) (l : List α) :
    a ∈ insertBy le x l ↔ a = x ∨ a ∈ l := by
  induction l with
  | nil => simp [insertBy]
  | cons y ys ih =>
    simp only [insertBy]
    split
    · simp [or_comm, or_assoc, or_left_comm]
    · simp [ih]
      tauto

lemma mem_sortBy {α : Type} (le : α → α → Bool) (a : α) (l : List α) :
    a ∈ sortBy le l ↔ a ∈ l := by
  induction l with
  | nil => simp [sortBy]
  | cons y ys ih =>
    simp only [sortBy, List.foldr_cons] at *
    rw [mem_insertBy, ih]
    simp

/-- Inverting one emitted compliance record. -/
lemma complianceSector_inv {now : Int} {rows : List PRow} {sector : String}
    {rec : CompRec} (h : complianceSector now rows sector = some rec) :
    rec.total = (sectorFilterRows rows sector).length ∧
    0 < rec.total ∧
    rec.closed = countClosed (sectorFilterRows rows sector) ∧
    rec.closed ≤ rec.total ∧
    rec.compliancePct = (rec.closed : ℚ) / (rec.total : ℚ) * 100 ∧
    (0 ≤ rec.recentPct ∧ rec.recentPct ≤ 100) ∧
    rec.trend = rec.recentPct - rec.compliancePct ∧
    rec.priority = codePriority rec.compliancePct rec.trend := by
  simp only [complianceSector] at h
  split at h
  · exact absurd h (by simp)
  · rename_i hne
    have hnil : sectorFilterRows rows sector ≠ [] := by
      simpa [List.isEmpty_iff] using hne
    have hpos : 0 < (sectorFilterRows rows sector).length := List.length_pos.mpr hnil
    cases h
    refine ⟨rfl, hpos, rfl, countClosed_le _, ?_, ?_, rfl, rfl⟩
    · simp [if_pos hpos]
    · set recent := (sectorFilterRows rows sector).filter
        (fun r => match r.date with
          | some d => decide (now - 90 ≤ d)
          | none => false) with hrec
      by_cases hre : recent.isEmpty
      · simp [hre]
      · have hrpos : 0 < recent.length :=
          List.length_pos.mpr (by simpa [List.isEmpty_iff] using hre)
        have := div_mul_100_bounds (countClosed_le recent) hrpos
        simpa [hre, hrpos] using this

/-- Inverting one emitted risk record. -/
lemma riskActivityRecord_inv {rows : List PRow} {activity : String}
    {rec : RiskRec}
    (h : riskActivityRecord rows activity = some rec) :
    rec.total = (rows.filter (fun r => containsCI (optStr r.activity) activity)).length ∧
    0 < rec.total ∧
    rec.high ≤ rec.total ∧
    rec.pct = (rec.high : ℚ) / (rec.total : ℚ) * 100 := by
  simp only [riskActivityRecord] at h
  split at h
  · exact absurd h (by simp)
  · rename_i hne
    have hnil : rows.filter (fun r => containsCI (optStr r.activity) activity) ≠ [] := by
      simpa [List.isEmpty_iff] using hne
    have hpos : 0 < (rows.filter (fun r => containsCI (optStr r.activity) activity)).length :=
      List.length_pos.mpr hnil
    cases h
    exact ⟨rfl, hpos, List.length_filter_le _ _, by simp [if_pos hpos]⟩

/-- Inverting one emitted incident record. -/
lemma incidentSector_inv {hasRec : Bool} {rows : List PRow} {sector : String}
    {rec : IncRec} (h : incidentSector hasRec rows sector = some rec) :
    rec.total = (sectorFilterRows rows sector).length ∧
    0 < rec.total ∧
    rec.recs = (if hasRec then
      ((sectorFilterRows rows sector).filter (fun r => r.recCell.isSome)).length
      else rec.total) ∧
    rec.closed = countClosed (sectorFilterRows rows sector) ∧
    rec.closure = (if 0 < rec.recs then (rec.closed : ℚ) / (rec.recs : ℚ) * 100 else 0) := by
  simp only [incidentSector] at h
  split at h
  · exact absurd h (by simp)
  · cases h
    exact ⟨rfl, List.length_pos.mpr (by simp_all [List.isEmpty_iff]), rfl, rfl, rfl⟩

/-- Membership in a successful compliance summary comes from the sector loop. -/
lemma compliance_ok_mem {now : Int} {frame : PFrame} {filters : Option PFilters}
    {out : List CompRec} {rec : CompRec}
    (h : getComplianceSummary now frame filters = .ok out) (hrec : rec ∈ out) :
    ∃ s rows, complianceSector now rows s = some rec := by
  unfold getComplianceSummary at h
  split at h
  · cases h
    simp at hrec
  · match filters, h with
    | some f, h =>
      cases h
      simp only [complianceRecords] at hrec
      obtain ⟨s, _, hs⟩ := List.mem_filterMap.mp hrec
      exact ⟨s, _, hs⟩

lemma mem_riskSortStep {v : Option String} {l : List RiskRec} {rec : RiskRec}
    (h : rec ∈ riskSortStep v l) : rec ∈ l := by
  unfold riskSortStep at h
  split at h
  · split at h
    · exact (mem_sortBy _ _ _).mp h
    · split at h
      · exact (mem_sortBy _ _ _).mp h
      · split at h
        · exact (mem_sortBy _ _ _).mp h
        · exact h
  · exact h

lemma mem_riskFilterStep {v : Option String} {l : List RiskRec} {rec : RiskRec}
    (h : rec ∈ riskFilterStep v l) : rec ∈ l := by
  unfold riskFilterStep at h
  split at h
  · split at h
    · exact (List.mem_filter.mp h).1
    · split at h
      · exact (List.mem_filter.mp h).1
      · split at h
        · exact (List.mem_filter.mp h).1
        · exact h
  · exact h

/-- Membership in a successful risk summary comes from the activity loop. -/
lemma risk_ok_mem {frame : PFrame} {filters : Option PFilters}
    {out : List RiskRec} {rec : RiskRec}
    (h : getRiskSummary frame filters = .ok out) (hrec : rec ∈ out) :
    ∃ a rows, riskActivityRecord rows a = some rec := by
  unfold getRiskSummary at h
  split at h
  · cases h
    simp at hrec
  · match filters, h with
    | some f, h =>
      cases h
      simp only [riskRecords] at hrec
      have h1 := mem_riskFilterStep (mem_riskSortStep hrec)
      obtain ⟨a, _, ha⟩ := List.mem_filterMap.mp h1
      exact ⟨a, _, ha⟩

/-- The source's nested conditionals agree pointwise with the spec's top-down
table. -/
lemma codePriority_eq_specTable (p t : ℚ) : codePriority p t = specPriorityTable p t := by
  unfold codePriority specPriorityTable
  by_cases h90 : 90 ≤ p
  · by_cases ht0 : 0 ≤ t
    · simp [h90, ht0]
    · have ht0' : t < 0 := not_le.mp ht0
      simp [h90, ht0, ht0']
  · by_cases h70 : 70 ≤ p
    · by_cases ht5 : 5 < t
      · simp [h90, h70, ht5]
      · by_cases htm : t < -5
        · simp [h90, h70, ht5, htm]
        · simp [h90, h70, ht5, htm]
    · have hF : p < 70 := not_le.mp h70
      by_cases ht5 : 5 < t
      · simp [h90, h70, ht5, hF]
      · simp [h90, h70, ht5]

/-- Membership in a successful incident summary comes from the sector loop. -/
lemma incidents_ok_mem {frame : PFrame} {filters : Option PFilters}
    {out : List IncRec} {rec : IncRec}
    (h : getIncidentsSummary frame filters = .ok out) (hrec : rec ∈ out) :
    ∃ s rows, incidentSector frame.hasRec rows s = some rec := by
  unfold getIncidentsSummary at h
  split at h
  · cases h
    simp at hrec
  · match filters, h with
    | some f, h =>
      cases h
      simp only [incidentRecords] at hrec
      obtain ⟨s, _, hs⟩ := List.mem_filterMap.mp hrec
      exact ⟨s, _, hs⟩

/-! ## Claim theorems -/

/-- C1: every sector record emitted by `get_compliance_summary` has a
non-empty row set (empty sectors are skipped, never emitted as zero-records),
its compliance% is closed/total·100, its trend is the recent-90-day
compliance% minus the overall compliance%, and its priority is exactly what
the spec's top-down, first-match-wins table assigns to (compliance%, trend). -/
theorem compliance_priority_matches_spec_table
    (now : Int) (frame : PFrame) (filters : Option PFilters) (out : List CompRec)
    (h : getComplianceSummary now frame filters = Except.ok out) :
    ∀ rec ∈ out,
      0 < rec.total ∧
      rec.compliancePct = (rec.closed : ℚ) / (rec.total : ℚ) * 100 ∧
      rec.trend = rec.recentPct - rec.compliancePct ∧
      rec.priority = specPriorityTable rec.compliancePct rec.trend := by
  intro rec hrec
  obtain ⟨s, rows, hs⟩ := compliance_ok_mem h hrec
  obtain ⟨_, hpos, _, _, hp, _, ht, hpr⟩ := complianceSector_inv hs
  exact ⟨hpos, hp, ht, by rw [hpr, codePriority_eq_specTable]⟩

/-- Witness for C1: a one-row frame (one closed inspection in the operations
sector) produces exactly one record, with compliance% 100, trend 0 and the
table's Low priority. -/
theorem compliance_priority_matches_spec_table_witness :
    getComplianceSummary 0 w1frame (some emptyFilters) = Except.ok [w1rec] ∧
    (∀ rec ∈ [w1rec],
      0 < rec.total ∧
      rec.compliancePct = (rec.closed : ℚ) / (rec.total : ℚ) * 100 ∧
      rec.trend = rec.recentPct - rec.compliancePct ∧
      rec.priority = specPriorityTable rec.compliancePct rec.trend) := by
  have hw : getComplianceSummary 0 w1frame (some emptyFilters) = Except.ok [w1rec] := by
    have hfr : applyCommonFilters emptyFilters w1frame.rows = [w1row] := rfl
    have hsec : sortedSet (sectorsToAnalyze emptyFilters.sectors [w1row]) =
        ["قطاع التشغيل"] := by decide
    have hsdf : sectorFilterRows [w1row] "قطاع التشغيل" = [w1row] := by decide
    have hcl : countClosed [w1row] = 1 := by decide
    have hrecent : ([w1row].filter (fun r => match r.date with
        | some d => decide ((0 : Int) - 90 ≤ d)
        | none => false)) = [w1row] := by decide
    simp only [getComplianceSummary, complianceRecords, hfr, hsec, List.filterMap]
    simp only [complianceSector, hsdf, hcl, hrecent]
    norm_num [codePriority, w1rec, w1frame]
  exact ⟨hw, compliance_priority_matches_spec_table 0 w1frame (some emptyFilters) [w1rec] hw⟩

/-- C2 counterexample: with the recommendation column present, three closed
rows and a single non-null recommendation value, the incident analyzer emits
closure% = 300, so its percentage fields are not bounded by 100. -/
theorem incident_closure_exceeds_hundred_cex :
    getIncidentsSummary cex2frame (some emptyFilters) = Except.ok [cex2rec] ∧
    (100 : ℚ) < cex2rec.closure := by
  constructor
  · have hfr : applyCommonFilters emptyFilters cex2frame.rows = cex2frame.rows := rfl
    have hsdf : sectorFilterRows cex2frame.rows "s" = cex2frame.rows := by decide
    have hcl : countClosed cex2frame.rows = 3 := by decide
    have hrc : ((cex2frame.rows).filter (fun r => r.recCell.isSome)).length = 1 := by decide
    have hone : incidentSector true cex2frame.rows "s" = some cex2rec := by
      have hie : cex2frame.rows.isEmpty = false := rfl
      have hlen : cex2frame.rows.length = 3 := rfl
      simp only [incidentSector, hsdf, hcl, hrc, hie, hlen, Bool.false_eq_true, if_false]
      norm_num [cex2rec]
    have hed : (cex2frame.rows.filterMap PRow.sector).eraseDups = ["s"] := by decide
    have e1 : cex2frame.rows.isEmpty = false := rfl
    have e2 : sortedSet (if (["s"] : List String).isEmpty = true then SECTORS else ["s"])
        = ["s"] := by decide
    have e3 : cex2frame.hasRec = true := rfl
    simp only [getIncidentsSummary, incidentRecords, hfr, hed, e1, e2, e3,
      Bool.false_eq_true, if_false]
    simp only [List.filterMap_cons, List.filterMap_nil, hone]
  · norm_num [cex2rec]

/-- C2 as amended: compliance% (and the recent-90-day%) and risk% always lie
in [0, 100]; incident closure% is always non-negative, and lies in [0, 100]
whenever the closed count does not exceed the recommendations count — in
particular whenever the recommendation column is absent (the fallback makes
recommendations equal the incident count) — but may exceed 100 when closed
rows outnumber non-null recommendation values. -/
theorem percentages_bounded_amended
    (now : Int) (frameC frameR frameI : PFrame) (filters : Option PFilters)
    (outC : List CompRec) (outR : List RiskRec) (outI : List IncRec)
    (hC : getComplianceSummary now frameC filters = Except.ok outC)
    (hR : getRiskSummary frameR filters = Except.ok outR)
    (hI : getIncidentsSummary frameI filters = Except.ok outI) :
    (∀ rec ∈ outC, 0 ≤ rec.compliancePct ∧ rec.compliancePct ≤ 100 ∧
      0 ≤ rec.recentPct ∧ rec.recentPct ≤ 100) ∧
    (∀ rec ∈ outR, 0 ≤ rec.pct ∧ rec.pct ≤ 100) ∧
    (∀ rec ∈ outI, 0 ≤ rec.closure ∧
      (rec.closed ≤ rec.recs → rec.closure ≤ 100) ∧
      (frameI.hasRec = false → rec.closure ≤ 100)) := by
  refine ⟨?_, ?_, ?_⟩
  · intro rec hrec
    obtain ⟨s, rows, hs⟩ := compliance_ok_mem hC hrec
    obtain ⟨htot, hpos, hclosed, hle, hp, hrc, _, _⟩ := complianceSector_inv hs
    have := div_mul_100_bounds (c := rec.closed) (t := rec.total) hle hpos
    exact ⟨by rw [hp]; exact this.1, by rw [hp]; exact this.2, hrc.1, hrc.2⟩
  · intro rec hrec
    obtain ⟨a, rows, ha⟩ := risk_ok_mem hR hrec
    obtain ⟨htot, hpos, hle, hp⟩ := riskActivityRecord_inv ha
    have := div_mul_100_bounds (c := rec.high) (t := rec.total) hle hpos
    exact ⟨by rw [hp]; exact this.1, by rw [hp]; exact this.2⟩
  · intro rec hrec
    obtain ⟨s, rows, hs⟩ := incidents_ok_mem hI hrec
    obtain ⟨htot, hpos, hrecs, hclosed, hcl⟩ := incidentSector_inv hs
    refine ⟨?_, ?_, ?_⟩
    · rw [hcl]
      split
      · positivity
      · norm_num
    · intro hle
      rw [hcl]
      split
      · rename_i hr
        exact (div_mul_100_bounds hle hr).2
      · norm_num
    · intro hfr
      rw [hcl]
      have hrecs' : rec.recs = rec.total := by
        rw [hrecs, hfr]
        simp
      have hle : rec.closed ≤ rec.recs := by
        rw [hrecs', htot, hclosed]
        exact countClosed_le _
      split
      · rename_i hr
        exact (div_mul_100_bounds hle hr).2
      · norm_num

/-- Witness for C2: an incidents frame with the recommendation column absent
yields closure% = 100 (closed = recommendations = 2), inside the bound; the
compliance and risk hypotheses are discharged with empty frames. -/
theorem percentages_bounded_amended_witness :
    getComplianceSummary 0 emptyPFrame (some emptyFilters) = Except.ok [] ∧
    getRiskSummary emptyPFrame (some emptyFilters) = Except.ok [] ∧
    getIncidentsSummary w2frame (some emptyFilters) = Except.ok [w2rec] ∧
    (∀ rec ∈ [w2rec], 0 ≤ rec.closure ∧
      (rec.closed ≤ rec.recs → rec.closure ≤ 100) ∧
      (w2frame.hasRec = false → rec.closure ≤ 100)) := by
  have h1 : getComplianceSummary 0 emptyPFrame (some emptyFilters) = Except.ok [] := rfl
  have h2 : getRiskSummary emptyPFrame (some emptyFilters) = Except.ok [] := rfl
  have h3 : getIncidentsSummary w2frame (some emptyFilters) = Except.ok [w2rec] := by
    have hfr : applyCommonFilters emptyFilters w2frame.rows = w2frame.rows := rfl
    have hsdf : sectorFilterRows w2frame.rows "s" = w2frame.rows := by decide
    have hcl : countClosed w2frame.rows = 2 := by decide
    have hone : incidentSector false w2frame.rows "s" = some w2rec := by
      have hie : w2frame.rows.isEmpty = false := rfl
      have hlen : w2frame.rows.length = 2 := rfl
      simp only [incidentSector, hsdf, hcl, hie, hlen, Bool.false_eq_true, if_false]
      norm_num [w2rec]
    have hed : (w2frame.rows.filterMap PRow.sector).eraseDups = ["s"] := by decide
    have e1 : w2frame.rows.isEmpty = false := rfl
    have e2 : sortedSet (if (["s"] : List String).isEmpty = true then SECTORS else ["s"])
        = ["s"] := by decide
    have e3 : w2frame.hasRec = false := rfl
    simp only [getIncidentsSummary, incidentRecords, hfr, hed, e1, e2, e3,
      Bool.false_eq_true, if_false]
    simp only [List.filterMap_cons, List.filterMap_nil, hone]
  exact ⟨h1, h2, h3,
    (percentages_bounded_amended 0 emptyPFrame emptyPFrame w2frame (some emptyFilters)
      [] [] [w2rec] h1 h2 h3).2.2⟩

/-- C3: on a non-empty frame each analyzer raises a `TypeError` when called
with the `filters` argument omitted (its documented `None` default reaches
`'date_range' in filters`), while an empty filters dict returns normally —
refuting totality for the omitted-filters call, exactly as the module's own
example `main()` would trigger it. -/
theorem analyzers_raise_on_omitted_filters :
    getComplianceSummary 0 c3frame none = Except.error noneTypeErr ∧
    getRiskSummary c3frame none = Except.error noneTypeErr ∧
    getIncidentsSummary c3frame none = Except.error noneTypeErr ∧
    isOkE (getComplianceSummary 0 c3frame (some emptyFilters)) = true ∧
    isOkE (getRiskSummary c3frame (some emptyFilters)) = true ∧
    isOkE (getIncidentsSummary c3frame (some emptyFilters)) = true := by
  refine ⟨rfl, rfl, rfl, rfl, rfl, rfl⟩

/-! ## Strip/canonicalizer lemmas (C4, C9) -/

lemma dropWhile_idem (p : Char → Bool) : ∀ l : List Char,
    (l.dropWhile p).dropWhile p = l.dropWhile p := by
  intro l
  induction l with
  | nil => rfl
  | cons a t ih =>
    by_cases h : p a
    · rw [List.dropWhile_cons_of_pos h, ih]
    · rw [List.dropWhile_cons_of_neg h, List.dropWhile_cons_of_neg h]

/-- The back-trim half of `stripWhile`. -/
lemma backTrim_of_frontTrimmed (p : Char → Bool) (y : List Char)
    (hy : y.dropWhile p = y) :
    ((y.reverse.dropWhile p).reverse).dropWhile p = (y.reverse.dropWhile p).reverse := by
  have hdec : y = (y.reverse.dropWhile p).reverse ++ (y.reverse.takeWhile p).reverse := by
    conv_lhs => rw [← List.reverse_reverse y,
      ← List.takeWhile_append_dropWhile (p := p) (l := y.reverse)]
    rw [List.reverse_append]
  cases hbt : (y.reverse.dropWhile p).reverse with
  | nil => rfl
  | cons a t =>
    rw [hbt] at hdec
    have hy' := hy
    rw [hdec] at hy'
    simp only [List.cons_append] at hy'
    by_cases h : p a
    · rw [List.dropWhile_cons_of_pos h] at hy'
      have hlen := congrArg List.length hy'
      have hle : (List.dropWhile p (t ++ (y.reverse.takeWhile p).reverse)).length ≤
          (t ++ (y.reverse.takeWhile p).reverse).length :=
        (List.dropWhile_sublist _).length_le
      simp only [List.length_cons] at hlen
      omega
    · rw [List.dropWhile_cons_of_neg h]

lemma stripWhile_idem (p : Char → Bool) (l : List Char) :
    stripWhile p (stripWhile p l) = stripWhile p l := by
  unfold stripWhile
  set y := l.dropWhile p with hy
  have hyft : y.dropWhile p = y := dropWhile_idem p l
  have hbft : ((y.reverse.dropWhile p).reverse).dropWhile p =
      (y.reverse.dropWhile p).reverse := backTrim_of_frontTrimmed p y hyft
  rw [hbft, List.reverse_reverse, dropWhile_idem]

lemma pyStrip_idem (s : String) : pyStrip (pyStrip s) = pyStrip s := by
  unfold pyStrip
  exact congrArg String.mk (stripWhile_idem pyWS s.data)

/-- Every status value is canonicalized to one of the two canonical labels or
passed through unchanged. -/
lemma standardize_cases (u : String) :
    standardizeStatusValue u = "مفتوح" ∨ standardizeStatusValue u = "مغلق" ∨
    standardizeStatusValue u = u := by
  cases hf : statusPairs.find? (fun p => p.1 = u) with
  | none =>
    refine Or.inr (Or.inr ?_)
    simp [standardizeStatusValue, hf]
  | some pr =>
    have hmem := List.mem_of_find?_eq_some hf
    have hall : ∀ q ∈ statusPairs, q.2 = "مفتوح" ∨ q.2 = "مغلق" := by decide
    rcases hall pr hmem with h | h
    · exact Or.inl (by simp [standardizeStatusValue, hf, h])
    · exact Or.inr (Or.inl (by simp [standardizeStatusValue, hf, h]))

/-- C4 counterexample: a status value outside the synonym table (`قيد
التنفيذ`, "in progress") survives text cleaning, status canonicalization and
the merge unchanged, so a unified status column is not restricted to the two
canonical values. -/
theorem status_passthrough_cex :
    unifiedStatusColumn c4cexSheets = [some "قيد التنفيذ"] ∧
    "قيد التنفيذ" ≠ "مفتوح" ∧ "قيد التنفيذ" ≠ "مغلق" := by
  refine ⟨by decide, by decide, by decide⟩

/-- C4 as amended: after canonicalization and merging, every non-null value of
a status column is one of the two canonical values `مفتوح`/`مغلق` or a value
the synonym table does not recognize, which passes through unchanged
(`standardizeStatusValue v = v`); the two-value invariant holds only up to
such unrecognized values. -/
theorem status_canonicalization_amended
    (sheets : List (List (Option String))) (v : String)
    (h : some v ∈ unifiedStatusColumn sheets) :
    v = "مفتوح" ∨ v = "مغلق" ∨ standardizeStatusValue v = v := by
  unfold unifiedStatusColumn at h
  obtain ⟨colOut, hcol, hv⟩ := List.mem_flatten.mp h
  obtain ⟨col, _, rfl⟩ := List.mem_map.mp hcol
  obtain ⟨x, _, hxv⟩ := List.mem_map.mp hv
  cases x with
  | none => exact absurd hxv (by simp)
  | some u =>
    have huv : standardizeStatusValue u = v := by
      simpa using hxv
    rcases standardize_cases u with h1 | h1 | h1
    · exact Or.inl (by rw [← huv, h1])
    · exact Or.inr (Or.inl (by rw [← huv, h1]))
    · refine Or.inr (Or.inr ?_)
      have hvu : v = u := by rw [← huv, h1]
      rw [hvu]
      exact h1

/-- Witness for C4: the English synonym `Closed` is canonicalized to `مغلق`,
which lands in the first two disjuncts. -/
theorem status_canonicalization_amended_witness :
    some "مغلق" ∈ unifiedStatusColumn c4wSheets ∧
    ("مغلق" = "مفتوح" ∨ "مغلق" = "مغلق" ∨ standardizeStatusValue "مغلق" = "مغلق") :=
  ⟨by decide, status_canonicalization_amended c4wSheets "مغلق" (by decide)⟩

/-- C9 counterexample: the Column Normalizer (cleaning plus duplicate
suffixing) is not idempotent — on `[a, a, a_1]` a second run renames the
third label again, to `a_1_1`. -/
theorem normalizer_not_idempotent_cex :
    normalizeColumns ((normalizeColumns cex9cols).map some) ≠ normalizeColumns cex9cols ∧
    normalizeColumns cex9cols = ["a", "a_1", "a_1"] ∧
    normalizeColumns ((normalizeColumns cex9cols).map some) = ["a", "a_1", "a_1_1"] := by
  refine ⟨by decide, by decide, by decide⟩

/-- C9 as amended: the Text Canonicalizer and the Status Canonicalizer are
idempotent (re-running either on its own output changes nothing); the Column
Normalizer is not. -/
theorem canonicalizers_idempotent_amended :
    (∀ x : Option String, cleanTextCell (cleanTextCell x) = cleanTextCell x) ∧
    (∀ v : String, standardizeStatusValue (standardizeStatusValue v) =
      standardizeStatusValue v) := by
  constructor
  · intro x
    cases x with
    | none => rfl
    | some s =>
      have hsome : cleanTextCell (some s) =
          if pyStrip s = "nan" ∨ pyStrip s = "" then none else some (pyStrip s) := rfl
      by_cases h : pyStrip s = "nan" ∨ pyStrip s = ""
      · rw [hsome, if_pos h]
        rfl
      · rw [hsome, if_neg h]
        have hsome2 : cleanTextCell (some (pyStrip s)) =
            if pyStrip (pyStrip s) = "nan" ∨ pyStrip (pyStrip s) = "" then none
            else some (pyStrip (pyStrip s)) := rfl
        rw [hsome2, pyStrip_idem, if_neg h]
  · intro v
    rcases standardize_cases v with h | h | h
    · rw [h]
      decide
    · rw [h]
      decide
    · rw [h, h]

/-! ## Incident analyzer (C8) -/

/-- C8 counterexample: five incidents with the recommendation column present
but entirely null and three closed rows yield recommendations = 0 and
closure% = 0 — not the fallback recommendations = 5 and closure% = 60 the
claim asserts. -/
theorem incident_recommendations_null_cex :
    incidentSector true cex8rows "s" = some cex8rec ∧
    cex8rec.recs = 0 ∧ cex8rec.closure = 0 ∧
    cex8rec.recs ≠ 5 ∧ cex8rec.closure ≠ 60 := by
  refine ⟨?_, rfl, rfl, by decide, by norm_num [cex8rec]⟩
  have hsdf : sectorFilterRows cex8rows "s" = cex8rows := by decide
  have hcl : countClosed cex8rows = 3 := by decide
  have hrc : (cex8rows.filter (fun r => r.recCell.isSome)).length = 0 := by decide
  have hie : cex8rows.isEmpty = false := rfl
  have hlen : cex8rows.length = 5 := rfl
  simp only [incidentSector, hsdf, hcl, hrc, hie, hlen, Bool.false_eq_true, if_false]
  norm_num [cex8rec]

/-- C8 as amended: the recommendations count of an emitted incident record is
the count of non-null recommendation values when the recommendation column is
present, and falls back to the incident count only when the column is absent
(so a present-but-all-null column gives 0, and closure% short-circuits to 0);
closure% = closed/recommendations·100 whenever recommendations is positive. -/
theorem incident_recommendations_amended
    (hasRec : Bool) (rows : List PRow) (sector : String) (rec : IncRec)
    (h : incidentSector hasRec rows sector = some rec) :
    rec.total = (sectorFilterRows rows sector).length ∧
    rec.recs = (if hasRec then
      ((sectorFilterRows rows sector).filter (fun r => r.recCell.isSome)).length
      else rec.total) ∧
    rec.closure = (if 0 < rec.recs then (rec.closed : ℚ) / (rec.recs : ℚ) * 100 else 0) := by
  obtain ⟨h1, _, h3, _, h5⟩ := incidentSector_inv h
  exact ⟨h1, h3, h5⟩

/-- Witness for C8: the same five rows with the recommendation column absent
take the fallback, giving recommendations = 5 and closure% = 60. -/
theorem incident_recommendations_amended_witness :
    incidentSector false cex8rows "s" = some w8rec ∧
    (w8rec.total = (sectorFilterRows cex8rows "s").length ∧
     w8rec.recs = (if false then
       ((sectorFilterRows cex8rows "s").filter (fun r => r.recCell.isSome)).length
       else w8rec.total) ∧
     w8rec.closure = (if 0 < w8rec.recs then
       (w8rec.closed : ℚ) / (w8rec.recs : ℚ) * 100 else 0)) := by
  have hw : incidentSector false cex8rows "s" = some w8rec := by
    have hsdf : sectorFilterRows cex8rows "s" = cex8rows := by decide
    have hcl : countClosed cex8rows = 3 := by decide
    have hie : cex8rows.isEmpty = false := rfl
    have hlen : cex8rows.length = 5 := rfl
    simp only [incidentSector, hsdf, hcl, hie, hlen, Bool.false_eq_true, if_false]
    norm_num [w8rec]
  exact ⟨hw, incident_recommendations_amended false cex8rows "s" w8rec hw⟩

/-! ## Schema Unifier (C6) -/

/-- C6: merging the tables of one semantic type keeps every column of every
input (union of columns), the output row count is the sum of the input row
counts, the output rows are exactly the per-source reindexed rows in source
order, and a reindexed row is null on every column its source table lacked. -/
theorem merge_union_columns_rowsum (dfs : List GTable) (hne : dfs ≠ []) :
    (∀ df ∈ dfs, ∀ c ∈ df.cols, c ∈ (mergeSimilarDatasets dfs).cols) ∧
    (mergeSimilarDatasets dfs).rows.length = (dfs.map (fun df => df.rows.length)).sum ∧
    (mergeSimilarDatasets dfs).rows = (dfs.map (fun df => df.rows.map (reindexRow df))).flatten ∧
    (∀ df ∈ dfs, ∀ r : String → Option String, ∀ c, c ∉ df.cols → reindexRow df r c = none) := by
  refine ⟨?_, ?_, rfl, ?_⟩
  · intro df hdf c hc
    show c ∈ unionCols dfs
    unfold unionCols
    rw [List.mem_dedup, List.mem_flatten]
    exact ⟨df.cols, List.mem_map.mpr ⟨df, hdf, rfl⟩, hc⟩
  · show ((dfs.map (fun df => df.rows.map (reindexRow df))).flatten).length = _
    rw [List.length_flatten, List.map_map]
    congr 1
    apply List.map_congr_left
    intro df _
    simp
  · intro df _ r c hc
    simp [reindexRow, hc]

/-- Witness for C6: the spec's two-sheet example (4 columns vs 5 columns). -/
theorem merge_union_columns_rowsum_witness :
    c6dfs ≠ [] ∧
    ((∀ df ∈ c6dfs, ∀ c ∈ df.cols, c ∈ (mergeSimilarDatasets c6dfs).cols) ∧
     (mergeSimilarDatasets c6dfs).rows.length =
       (c6dfs.map (fun df => df.rows.length)).sum ∧
     (mergeSimilarDatasets c6dfs).rows =
       (c6dfs.map (fun df => df.rows.map (reindexRow df))).flatten ∧
     (∀ df ∈ c6dfs, ∀ r : String → Option String, ∀ c, c ∉ df.cols →
       reindexRow df r c = none)) :=
  ⟨by simp [c6dfs], merge_union_columns_rowsum c6dfs (by simp [c6dfs])⟩

/-! ## Frame effects (C10) -/

lemma getD_append_left (l : List PFrame) (x d : PFrame) {j : Nat} (hj : j < l.length) :
    (l ++ [x]).getD j d = l.getD j d := by
  simp [List.getD, List.getElem?_append, hj]

lemma getD_set_of_ne (l : List PFrame) (x d : PFrame) {k j : Nat} (h : k ≠ j) :
    (l.set k x).getD j d = l.getD j d := by
  simp [List.getD, List.getElem?_set_ne h]

/-- C10: the three analyzers never change the frames the caller passed in —
every pre-existing index of the store holds the same frame afterwards; the
filtered copy (and the risk analyzer's derived-column write to it) live at a
fresh index. -/
theorem analyzers_preserve_input_frames
    (heap : List PFrame) (i : Nat) (now : Int) (filters : Option PFilters)
    (j : Nat) (hj : j < heap.length) :
    (getComplianceSummaryH heap i now filters).1.getD j emptyPFrame =
      heap.getD j emptyPFrame ∧
    (getRiskSummaryH heap i filters).1.getD j emptyPFrame =
      heap.getD j emptyPFrame ∧
    (getIncidentsSummaryH heap i filters).1.getD j emptyPFrame =
      heap.getD j emptyPFrame := by
  refine ⟨?_, ?_, ?_⟩
  · simp only [getComplianceSummaryH, hAlloc]
    split
    · rfl
    · split
      · exact getD_append_left _ _ _ hj
      · exact getD_append_left _ _ _ hj
  · simp only [getRiskSummaryH, hAlloc]
    split
    · rfl
    · split
      · exact getD_append_left _ _ _ hj
      · split
        · exact getD_append_left _ _ _ hj
        · rw [getD_set_of_ne _ _ _ (by omega), getD_append_left _ _ _ hj]
  · simp only [getIncidentsSummaryH, hAlloc]
    split
    · rfl
    · split
      · exact getD_append_left _ _ _ hj
      · exact getD_append_left _ _ _ hj

/-- Witness for C10: a one-frame store, observed at its only index. -/
theorem analyzers_preserve_input_frames_witness :
    0 < c10heap.length ∧
    ((getComplianceSummaryH c10heap 0 0 none).1.getD 0 emptyPFrame =
      c10heap.getD 0 emptyPFrame ∧
     (getRiskSummaryH c10heap 0 none).1.getD 0 emptyPFrame =
      c10heap.getD 0 emptyPFrame ∧
     (getIncidentsSummaryH c10heap 0 none).1.getD 0 emptyPFrame =
      c10heap.getD 0 emptyPFrame) :=
  ⟨by decide, analyzers_preserve_input_frames c10heap 0 0 none 0 (by decide)⟩

/-! ## Header Promoter (C7) -/

/-- C7 counterexample: on the spec's example sheet (row 0 `["Report Title",
null, null]`, row 1 `["ID", "Date", "Status"]`) the cleaning front promotes
row 0 itself — its single non-null cell is a non-numeric string, so the
0.5-fraction test fires on row 0 — producing labels `["Report_Title", "col_1",
"col_2"]` and keeping row 1 as data; row 1 is not promoted and is not
dropped. -/
theorem header_promoter_example_cex :
    cleanSheetFront c7raw = c7result ∧
    c7result.cols ≠ ["ID", "Date", "Status"] ∧
    c7result.rows ≠ [] := by
  refine ⟨?_, by decide, by decide⟩
  have hfront : cleanSheetFront c7raw = headerStep ⟨["col_0", "col_1", "col_2"],
      [[some (.s "Report Title"), none, none],
       [some (.s "ID"), some (.s "Date"), some (.s "Status")]]⟩ := by rfl
  have hh : isPotentialHeaderRow ["col_0", "col_1", "col_2"]
      [some (.s "Report Title"), none, none] = true := by
    have h1 : countStringLike [some (.s "Report Title"), none, none] = 1 := by decide
    have h2 : countNotNa [some (.s "Report Title"), none, none] = 1 := by decide
    simp only [isPotentialHeaderRow, h1, h2, Bool.or_eq_true, Bool.and_eq_true,
      decide_eq_true_eq]
    left
    norm_num
  rw [hfront]
  simp only [headerStep, hh, if_true]
  have : handleDuplicateColumns (cleanColumnNames
      ((promotedLabels [some (.s "Report Title"), none, none]).map some)) =
      ["Report_Title", "col_1", "col_2"] := by decide
  rw [this]
  rfl

/-- C7 as amended: the Header Promoter inspects only row 0.  It fires exactly
when the fraction of row 0's non-null cells that are non-numeric strings
exceeds 0.5, or when some (not "most") column label still starts with the
`Unnamed` placeholder and the count of such cells exceeds 0.3 of the total
(including null) cell count; on firing, row 0 becomes the labels
(re-normalized and deduplicated) and only row 0 is dropped from the data. -/
theorem header_promoter_amended
    (labels : List String) (cells : List (Option PV))
    (cols : List String) (r0 : List (Option PV)) (rest : List (List (Option PV))) :
    (isPotentialHeaderRow labels cells = true ↔ headerHeuristic labels cells) ∧
    (isPotentialHeaderRow cols r0 = true →
      headerStep ⟨cols, r0 :: rest⟩ =
        ⟨handleDuplicateColumns (cleanColumnNames ((promotedLabels r0).map some)), rest⟩) ∧
    (isPotentialHeaderRow cols r0 = false →
      headerStep ⟨cols, r0 :: rest⟩ = ⟨cols, r0 :: rest⟩) := by
  refine ⟨?_, ?_, ?_⟩
  · unfold isPotentialHeaderRow headerHeuristic
    simp [Bool.or_eq_true, Bool.and_eq_true, decide_eq_true_eq, List.any_eq_true]
  · intro h
    simp [headerStep, h]
  · intro h
    simp [headerStep, h]

/-- Witness for C7: a sheet whose row 0 is all non-numeric strings passes the
heuristic and is promoted, dropping exactly row 0. -/
theorem header_promoter_amended_witness :
    isPotentialHeaderRow c7wSheet.cols [some (.s "ID"), some (.s "Date")] = true ∧
    headerStep ⟨c7wSheet.cols, [some (.s "ID"), some (.s "Date")] :: [[some (.s "x"), none]]⟩ =
      ⟨handleDuplicateColumns (cleanColumnNames
        ((promotedLabels [some (.s "ID"), some (.s "Date")]).map some)),
       [[some (.s "x"), none]]⟩ := by
  have hh : isPotentialHeaderRow c7wSheet.cols [some (.s "ID"), some (.s "Date")] = true := by
    have h1 : countStringLike [some (.s "ID"), some (.s "Date")] = 2 := by decide
    have h2 : countNotNa [some (.s "ID"), some (.s "Date")] = 2 := by decide
    simp only [isPotentialHeaderRow, h1, h2, Bool.or_eq_true, Bool.and_eq_true,
      decide_eq_true_eq]
    left
    norm_num
  exact ⟨hh, (header_promoter_amended c7wSheet.cols [some (.s "ID"), some (.s "Date")]
    c7wSheet.cols [some (.s "ID"), some (.s "Date")] [[some (.s "x"), none]]).2.1 hh⟩

/-! ## Duplicate-column suffixing (C5)

The suffix `f"{col}_{seen[col]}"` is injective in (name, counter) as long as
the name part carries no information about the counter part: the counter
renders as digits, which contain no underscore, so the decomposition at the
last underscore is unique. -/

lemma digitChar_ne_us : ∀ d : Nat, digitChar d ≠ '_' := by
  intro d
  unfold digitChar
  split <;> decide

lemma toDecCore_fuel : ∀ (n f : Nat), n < f → toDecCore f n = toDecChars n := by
  intro n
  induction n using Nat.strong_induction_on with
  | _ n ih =>
    intro f hf
    match f, hf with
    | f + 1, hf =>
      unfold toDecChars
      show toDecCore (f + 1) n = toDecCore (n + 1) n
      by_cases h10 : n < 10
      · simp [toDecCore, h10]
      · have hlt : n / 10 < n := Nat.div_lt_self (by omega) (by omega)
        simp only [toDecCore, if_neg h10]
        rw [ih (n / 10) hlt f (by omega), ih (n / 10) hlt n (by omega)]

lemma toDecChars_unfold (n : Nat) :
    toDecChars n =
      if n < 10 then [digitChar n] else toDecChars (n / 10) ++ [digitChar (n % 10)] := by
  conv_lhs => rw [toDecChars]
  by_cases h10 : n < 10
  · simp [toDecCore, h10]
  · have hlt : n / 10 < n := Nat.div_lt_self (by omega) (by omega)
    simp only [toDecCore, if_neg h10]
    rw [toDecCore_fuel (n / 10) n (by omega)]

lemma toDecChars_ne_nil (n : Nat) : toDecChars n ≠ [] := by
  rw [toDecChars_unfold]
  split <;> simp

lemma toDecChars_no_us (n : Nat) : ∀ c ∈ toDecChars n, c ≠ '_' := by
  induction n using Nat.strong_induction_on with
  | _ n ih =>
    rw [toDecChars_unfold]
    split
    · intro c hc
      simp at hc
      rw [hc]
      exact digitChar_ne_us n
    · intro c hc
      rw [List.mem_append] at hc
      rcases hc with hc | hc
      · exact ih (n / 10) (Nat.div_lt_self (by omega) (by omega)) c hc
      · simp at hc
        rw [hc]
        exact digitChar_ne_us (n % 10)

lemma digitChar_inj10 : ∀ a < 10, ∀ b < 10, digitChar a = digitChar b → a = b := by decide

lemma toDecChars_inj : ∀ a b : Nat, toDecChars a = toDecChars b → a = b := by
  intro a
  induction a using Nat.strong_induction_on with
  | _ a ih =>
    intro b h
    rw [toDecChars_unfold a, toDecChars_unfold b] at h
    by_cases ha : a < 10 <;> by_cases hb : b < 10
    · rw [if_pos ha, if_pos hb] at h
      simp only [List.cons.injEq, and_true] at h
      exact digitChar_inj10 a ha b hb h
    · rw [if_pos ha, if_neg hb] at h
      have hlen := congrArg List.length h
      simp only [List.length_cons, List.length_append, List.length_nil] at hlen
      have h0 : (toDecChars (b / 10)).length = 0 := by omega
      exact absurd (List.length_eq_zero.mp h0) (toDecChars_ne_nil _)
    · rw [if_neg ha, if_pos hb] at h
      have hlen := congrArg List.length h
      simp only [List.length_cons, List.length_append, List.length_nil] at hlen
      have h0 : (toDecChars (a / 10)).length = 0 := by omega
      exact absurd (List.length_eq_zero.mp h0) (toDecChars_ne_nil _)
    · rw [if_neg ha, if_neg hb] at h
      have h' := congrArg List.reverse h
      simp only [List.reverse_append, List.reverse_cons, List.reverse_nil,
        List.nil_append, List.singleton_append] at h'
      injection h' with hd ht
      have hmod : a % 10 = b % 10 :=
        digitChar_inj10 _ (Nat.mod_lt _ (by omega)) _ (Nat.mod_lt _ (by omega)) hd
      have hdiv : a / 10 = b / 10 :=
        ih (a / 10) (Nat.div_lt_self (by omega) (by omega)) (b / 10)
          (List.reverse_injective ht)
      omega

lemma split_first_us : ∀ (u : List Char) (x v y : List Char),
    (∀ c ∈ u, c ≠ '_') → (∀ c ∈ v, c ≠ '_') →
    u ++ '_' :: x = v ++ '_' :: y → u = v ∧ x = y := by
  intro u
  induction u with
  | nil =>
    intro x v y _ hv h
    cases v with
    | nil => simpa using h
    | cons b bs =>
      simp only [List.nil_append, List.cons_append, List.cons.injEq] at h
      exact absurd h.1.symm (hv b (by simp))
  | cons a as ih =>
    intro x v y hu hv h
    cases v with
    | nil =>
      simp only [List.nil_append, List.cons_append, List.cons.injEq] at h
      exact absurd h.1 (hu a (by simp))
    | cons b bs =>
      simp only [List.cons_append, List.cons.injEq] at h
      obtain ⟨hab, hrest⟩ := h
      obtain ⟨h1, h2⟩ := ih x bs y (fun c hc => hu c (by simp [hc]))
        (fun c hc => hv c (by simp [hc])) hrest
      exact ⟨by rw [hab, h1], h2⟩

lemma split_last_us (a b s t : List Char)
    (hs : ∀ c ∈ s, c ≠ '_') (ht : ∀ c ∈ t, c ≠ '_')
    (h : a ++ '_' :: s = b ++ '_' :: t) : a = b ∧ s = t := by
  have h' := congrArg List.reverse h
  simp only [List.reverse_append, List.reverse_cons, List.append_assoc,
    List.singleton_append] at h'
  obtain ⟨h1, h2⟩ := split_first_us s.reverse a.reverse t.reverse b.reverse
    (fun c hc => hs c (List.mem_reverse.mp hc))
    (fun c hc => ht c (List.mem_reverse.mp hc)) h'
  exact ⟨List.reverse_injective h2, List.reverse_injective h1⟩

lemma str_data_inj {x y : String} (h : x.data = y.data) : x = y := by
  cases x
  cases y
  exact congrArg String.mk h

/-- The suffixed rendering is injective in (name, counter). -/
lemma suffix_inj {c d : String} {k j : Nat}
    (h : c ++ "_" ++ natToDec k = d ++ "_" ++ natToDec j) : c = d ∧ k = j := by
  have hd : (c ++ "_" ++ natToDec k).data = (d ++ "_" ++ natToDec j).data :=
    congrArg String.data h
  have e : ∀ (x : String) (m : Nat), (x ++ "_" ++ natToDec m).data =
      x.data ++ '_' :: toDecChars m := by
    intro x m
    show (x.data ++ ['_']) ++ toDecChars m = _
    rw [List.append_assoc, List.singleton_append]
  rw [e, e] at hd
  obtain ⟨h1, h2⟩ := split_last_us c.data d.data (toDecChars k) (toDecChars j)
    (toDecChars_no_us k) (toDecChars_no_us j) hd
  exact ⟨str_data_inj h1, toDecChars_inj k j h2⟩

/-- The occurrence counter strictly grows along later positions of the same
label. -/
lemma count_take_lt (l : List String) (m n : Nat) (hmn : m < n) (hn : n ≤ l.length) :
    (l.take m).count (l.getD m "") < (l.take n).count (l.getD m "") := by
  have hm : m < l.length := lt_of_lt_of_le hmn hn
  have h1 : l.take (m + 1) = l.take m ++ [l.getD m ""] := by
    rw [List.take_succ, List.getElem?_eq_getElem hm, List.getD_eq_getElem l "" hm]
    rfl
  have h2 : (l.take (m + 1)).count (l.getD m "") = (l.take m).count (l.getD m "") + 1 := by
    rw [h1, List.count_append]
    simp
  have h3 : (l.take (m + 1)).count (l.getD m "") ≤ (l.take n).count (l.getD m "") := by
    apply List.Sublist.count_le
    have hmin : l.take (m + 1) = (l.take n).take (m + 1) := by
      rw [List.take_take]
      congr 1
      omega
    rw [hmin]
    exact List.take_sublist _ _
  omega

/-- Injectivity of the emitted labels across positions, provided no input
label is some other input label's suffixed form. -/
lemma dedupedLabel_inj (cols : List String)
    (H : ∀ c ∈ cols, ∀ d ∈ cols, ∀ k ∈ List.range (cols.length + 1), 0 < k →
      d ≠ c ++ "_" ++ natToDec k)
    {m n : Nat} (hm : m < cols.length) (hn : n < cols.length) (hmn : m < n) :
    dedupedLabel cols m ≠ dedupedLabel cols n := by
  intro heq
  unfold dedupedLabel at heq
  have hcm : cols.getD m "" ∈ cols := by
    rw [List.getD_eq_getElem _ _ hm]
    exact List.getElem_mem ..
  have hdm : cols.getD n "" ∈ cols := by
    rw [List.getD_eq_getElem _ _ hn]
    exact List.getElem_mem ..
  have hkmle : (cols.take m).count (cols.getD m "") < cols.length + 1 := by
    have h1 := List.count_le_length (cols.getD m "") (cols.take m)
    have h2 : (cols.take m).length ≤ cols.length := by
      rw [List.length_take]
      omega
    omega
  have hknle : (cols.take n).count (cols.getD n "") < cols.length + 1 := by
    have h1 := List.count_le_length (cols.getD n "") (cols.take n)
    have h2 : (cols.take n).length ≤ cols.length := by
      rw [List.length_take]
      omega
    omega
  have hstrict := count_take_lt cols m n hmn (le_of_lt hn)
  by_cases h1 : (cols.take m).count (cols.getD m "") = 0 <;>
    by_cases h2 : (cols.take n).count (cols.getD n "") = 0
  · rw [if_pos h1, if_pos h2] at heq
    rw [heq] at hstrict
    rw [h2] at hstrict
    exact absurd hstrict (Nat.not_lt_zero _)
  · rw [if_pos h1, if_neg h2] at heq
    exact H (cols.getD n "") hdm (cols.getD m "") hcm
      ((cols.take n).count (cols.getD n "")) (List.mem_range.mpr hknle)
      (by omega) heq
  · rw [if_neg h1, if_pos h2] at heq
    exact H (cols.getD m "") hcm (cols.getD n "") hdm
      ((cols.take m).count (cols.getD m "")) (List.mem_range.mpr hkmle)
      (by omega) heq.symm
  · rw [if_neg h1, if_neg h2] at heq
    obtain ⟨hcd, hkk⟩ := suffix_inj heq
    rw [hcd] at hstrict hkk
    omega

lemma handleDup_getD (cols : List String) (n : Nat) (h : n < cols.length) :
    (handleDuplicateColumns cols).getD n "" = dedupedLabel cols n := by
  unfold handleDuplicateColumns
  rw [List.getD_eq_getElem _ _ (by simpa using h), List.getElem_map, List.getElem_range]

/-- C5 counterexample: on `[a, a_1, a]` the second `a` is renamed to `a_1`,
colliding with the label `a_1` already present, so the output labels are not
unique. -/
theorem dedup_collision_cex :
    handleDuplicateColumns cex5cols = ["a", "a_1", "a_1"] ∧
    ¬ (handleDuplicateColumns cex5cols).Nodup := by
  refine ⟨by decide, by decide⟩

/-- C5 as amended: the k-th occurrence (k ≥ 1) of a repeated label `c` is
emitted as `c_k` and the first occurrence stays unsuffixed; the output labels
are unique for every input list in which no label equals another input label
suffixed with `_k` (1 ≤ k ≤ list length) — uniqueness can fail for lists that
already contain labels of the form `name_k`, such as `[a, a_1, a]`. -/
theorem dedup_unique_amended (cols : List String)
    (H : ∀ c ∈ cols, ∀ d ∈ cols, ∀ k ∈ List.range (cols.length + 1), 0 < k →
      d ≠ c ++ "_" ++ natToDec k) :
    (handleDuplicateColumns cols).Nodup ∧
    (handleDuplicateColumns cols).length = cols.length ∧
    ∀ n, n < cols.length →
      ((cols.take n).count (cols.getD n "") = 0 →
        (handleDuplicateColumns cols).getD n "" = cols.getD n "") ∧
      (0 < (cols.take n).count (cols.getD n "") →
        (handleDuplicateColumns cols).getD n "" =
          cols.getD n "" ++ "_" ++ natToDec ((cols.take n).count (cols.getD n ""))) := by
  refine ⟨?_, by simp [handleDuplicateColumns], ?_⟩
  · unfold handleDuplicateColumns
    apply List.Nodup.map_on ?_ (List.nodup_range _)
    intro m hm n hn hf
    rw [List.mem_range] at hm hn
    rcases lt_trichotomy m n with hlt | heqq | hgt
    · exact absurd hf (dedupedLabel_inj cols H hm hn hlt)
    · exact heqq
    · exact absurd hf.symm (dedupedLabel_inj cols H hn hm hgt)
  · intro n hlt
    rw [handleDup_getD cols n hlt]
    simp only [dedupedLabel]
    constructor
    · intro h0
      rw [if_pos h0]
    · intro hpos
      rw [if_neg (by omega)]

/-- Witness for C5: `[a, b, a]` has no pre-suffixed labels, so the hypothesis
holds and the output `[a, b, a_1]` is unique, with the first `a` unsuffixed
and the second suffixed with its occurrence counter 1. -/
theorem dedup_unique_amended_witness :
    (∀ c ∈ w5cols, ∀ d ∈ w5cols, ∀ k ∈ List.range (w5cols.length + 1), 0 < k →
      d ≠ c ++ "_" ++ natToDec k) ∧
    ((handleDuplicateColumns w5cols).Nodup ∧
     (handleDuplicateColumns w5cols).length = w5cols.length ∧
     ∀ n, n < w5cols.length →
       ((w5cols.take n).count (w5cols.getD n "") = 0 →
         (handleDuplicateColumns w5cols).getD n "" = w5cols.getD n "") ∧
       (0 < (w5cols.take n).count (w5cols.getD n "") →
         (handleDuplicateColumns w5cols).getD n "" =
           w5cols.getD n "" ++ "_" ++ natToDec ((w5cols.take n).count (w5cols.getD n "")))) :=
  ⟨by decide, dedup_unique_amended w5cols (by decide)⟩

end AnalysisSite
